import Mathlib

/-!
# Verification of `montana_plate_lookup.py`

A shallow embedding of the Montana license-plate county lookup program and
proofs about its table loader, display-preference selector, result formatter
and interactive query loop.

Modelling conventions:
* Python strings are Lean `String`s; `str.strip()` / `str.lower()` are modelled
  over the character list (`pyStrip` / `pyLower`), covering the ASCII behaviour
  the program relies on.
* `int(s)` is modelled by `pyIntParse` (optional surrounding whitespace,
  optional sign, a nonempty ASCII digit sequence in which single underscores
  may separate digits), returning `none` where Python raises `ValueError`.
* The file system is a function `String → Option (List (List String))`: a path
  is either unreadable (`none`, Python raises `FileNotFoundError` on `open`) or
  yields the CSV rows already split into fields, first row the header.
* Python's `dict` keyed by `int` is an insertion-ordered association list
  `CountyDict`; assignment `county_dict[p] = v` is `dictInsert` (overwrite in
  place, else append), `p in county_dict` / `county_dict[p]` are
  `dictHasKey` / `dictLookup`.
* Console reads are a scripted list of input lines; console writes are returned
  as lists of printed strings.  Exhausting the scripted input models the
  program blocking on `input()` (`none` / `StepOut.needInput`), not an exit.
* Exceptions of the loader body are the `PyExc` type; the `try/except` in
  `load_county_data` maps the three handled exceptions to `sys.exit(1)`
  outcomes carrying the printed message, and lets every other exception escape
  (`LoadOutcome.uncaught`).
-/

/-- Python `str.strip()`: drop whitespace from both ends (ASCII whitespace). -/
def pyStrip (s : String) : String :=
  String.mk (((s.data.dropWhile Char.isWhitespace).reverse.dropWhile Char.isWhitespace).reverse)

/-- Python `str.lower()` (ASCII letters, which is all the program compares). -/
def pyLower (s : String) : String :=
  String.mk (s.data.map Char.toLower)

/-- `line.strip().lower()`, as applied to each query-loop input line. -/
def pyStripLower (s : String) : String :=
  pyLower (pyStrip s)

/-- Tail of a Python integer literal body: digits, with single underscores
allowed only between digits. -/
def digitTail : List Char → Bool
  | [] => true
  | '_' :: c :: rest => c.isDigit && digitTail rest
  | '_' :: [] => false
  | c :: rest => c.isDigit && digitTail rest

/-- A valid (unsigned) Python integer literal body: nonempty, leading digit. -/
def digitSeq : List Char → Bool
  | [] => false
  | c :: rest => c.isDigit && digitTail rest

/-- Numeric value of a digit sequence, ignoring underscores. -/
def digitsVal (cs : List Char) : Nat :=
  (cs.filter (fun c => c != '_')).foldl (fun a c => a * 10 + (c.toNat - 48)) 0

/-- Python `int(s)`: strip whitespace, optional sign, digit sequence.
Returns `none` exactly where Python raises `ValueError`. -/
def pyIntParse (s : String) : Option Int :=
  match (pyStrip s).data with
  | [] => none
  | '+' :: rest => if digitSeq rest then some (digitsVal rest) else none
  | '-' :: rest => if digitSeq rest then some (-(digitsVal rest : Int)) else none
  | cs => if digitSeq cs then some (digitsVal cs) else none

/-- The county dictionary: Python `dict[int, tuple[str, str]]` as an
insertion-ordered association list of (prefix key, (county, seat)). -/
abbrev CountyDict := List (Int × String × String)

/-- The keys of the dictionary, in insertion order. -/
def dictKeys (d : CountyDict) : List Int :=
  d.map (fun e => e.1)

/-- First entry with the given key. -/
def dictFind (d : CountyDict) (k : Int) : Option (Int × String × String) :=
  d.find? (fun e => decide (e.1 = k))

/-- Python `county_dict[k]` (guarded by membership in the source). -/
def dictLookup (d : CountyDict) (k : Int) : Option (String × String) :=
  (dictFind d k).map (fun e => e.2)

/-- Python `k in county_dict`. -/
def dictHasKey (d : CountyDict) (k : Int) : Bool :=
  d.any (fun e => decide (e.1 = k))

/-- Python `county_dict[k] = v`: overwrite the existing entry in place,
otherwise append (insertion order, as in CPython dicts). -/
def dictInsert (d : CountyDict) (k : Int) (v : String × String) : CountyDict :=
  if dictHasKey d k then d.map (fun e => if e.1 = k then (k, v) else e)
  else d ++ [(k, v)]

/-- Exceptions that can arise in the body of `load_county_data`. -/
inductive PyExc where
  | fileNotFoundError : PyExc
  | keyError : PyExc
  | valueError : String → PyExc
  | indexError : PyExc
  | stopIteration : PyExc
deriving DecidableEq, Repr

/-- The row loop of `load_county_data`: for each row take `row[0]`, `row[1]`,
`int(row[2])` and insert into the dictionary.  A missing field raises
`IndexError`; a prefix that does not parse raises `ValueError` carrying the
offending field. -/
def processRows : List (List String) → CountyDict → Except PyExc CountyDict
  | [], county_dict => .ok county_dict
  | row :: rows, county_dict =>
    match row[0]? with
    | none => .error .indexError
    | some county =>
      match row[1]? with
      | none => .error .indexError
      | some seat =>
        match row[2]? with
        | none => .error .indexError
        | some pstr =>
          match pyIntParse pstr with
          | none => .error (.valueError pstr)
          | some k => processRows rows (dictInsert county_dict k (county, seat))

/-- Outcome of `load_county_data`: a table, one of the three handled fatal
exits (`sys.exit(1)` after printing the carried message), or an exception that
escapes the `try/except` entirely. -/
inductive LoadOutcome where
  | ok : CountyDict → LoadOutcome
  | notFoundExit : String → LoadOutcome
  | missingColumnExit : String → LoadOutcome
  | malformedExit : String → LoadOutcome
  | uncaught : PyExc → LoadOutcome
deriving DecidableEq, Repr

/-- `load_county_data`: open the file (raises `FileNotFoundError` if absent),
discard the header with `next(reader)` (raises `StopIteration` on an empty
file), run the row loop, and map `FileNotFoundError` / `KeyError` /
`ValueError` to printed-message exits while other exceptions escape. -/
def load_county_data (fs : String → Option (List (List String))) (filename : String) :
    LoadOutcome :=
  match
    (match fs filename with
     | none => .error .fileNotFoundError
     | some [] => .error .stopIteration
     | some (_hdr :: rows) => processRows rows [] : Except PyExc CountyDict)
  with
  | .ok county_dict => .ok county_dict
  | .error .fileNotFoundError =>
      .notFoundExit ("Error: Could not find file '" ++ filename ++ "'")
  | .error .keyError =>
      .missingColumnExit "Error: CSV file is missing expected column"
  | .error (.valueError v) =>
      .malformedExit ("Error: Invalid data in CSV file: " ++ v)
  | .error e => .uncaught e

/-- `ask_display_preference` on a scripted list of input lines: strip each
line; `""`/`"1"` select `'both'`, `"2"` selects `'county'`, `"3"` selects
`'seat'`, anything else re-prompts on the remaining input.  Returns the chosen
preference and the unconsumed input, or `none` when the script runs out (the
real program would block on `input()`). -/
def ask_display_preference : List String → Option (String × List String)
  | [] => none
  | c :: inputs =>
    let choice := pyStrip c
    if choice = "" ∨ choice = "1" then some ("both", inputs)
    else if choice = "2" then some ("county", inputs)
    else if choice = "3" then some ("seat", inputs)
    else ask_display_preference inputs

/-- 60 equals signs, `'=' * 60`. -/
def sepEq : String :=
  String.mk (List.replicate 60 '=')

/-- 60 dashes, `'-' * 60`. -/
def sepDash : String :=
  String.mk (List.replicate 60 '-')

/-- `display_result`: the list of lines printed for one query result. -/
def display_result (k : Int) (county_data : String × String)
    (display_preference : String) : List String :=
  let county_name := county_data.1
  let seat_city := county_data.2
  ["\n" ++ sepEq,
   "License Plate Prefix: " ++ toString k,
   sepDash]
  ++ (if display_preference = "both" then
        ["County:      " ++ county_name,
         "County Seat: " ++ seat_city]
      else if display_preference = "county" then
        ["County: " ++ county_name]
      else if display_preference = "seat" then
        ["County Seat: " ++ seat_city]
      else [])
  ++ [sepEq]

/-- One iteration of the `while True` loop in `lookup_county`:
the loop terminated (printing the farewell), or is still running with the
(possibly updated) dictionary, preference, remaining scripted input and the
lines printed this iteration, or is blocked waiting for more input. -/
inductive StepOut where
  | terminated : List String → StepOut
  | running : CountyDict → String → List String → List String → StepOut
  | needInput : StepOut
deriving DecidableEq, Repr

/-- The body of the query loop, applied to the current dictionary, current
display preference, and the scripted input (first line is this iteration's
`input()`).  Mirrors `lookup_county`'s dispatch: `exit`, `change`, then
`int(...)` with dictionary membership check. -/
def lookup_county_step (county_dict : CountyDict) (display_preference : String) :
    List String → StepOut
  | [] => .needInput
  | line :: rest =>
    let user_input := pyStripLower line
    if user_input = "exit" then
      .terminated ["\n See ya!"]
    else if user_input = "change" then
      match ask_display_preference rest with
      | some (p, rest') => .running county_dict p rest' ["\nDisplay preference updated!"]
      | none => .needInput
    else
      match pyIntParse user_input with
      | some k =>
        match dictLookup county_dict k with
        | some data =>
            .running county_dict display_preference rest
              (display_result k data display_preference)
        | none =>
            .running county_dict display_preference rest
              ["\nPrefix " ++ toString k ++ " not found in database.",
               "   Valid prefixes are 1-56.",
               "   Please check the license plate number and try again."]
      | none =>
          .running county_dict display_preference rest
            ["\nInvalid input: '" ++ user_input ++ "' is not a valid number.",
             "   Please enter a numeric prefix or 'exit' to quit."]

/-- The `while True` loop of `lookup_county`, run on scripted input.  Only the
control flow matters here (per-iteration effects are `lookup_county_step`):
the loop returns the preference in force at the `exit` command, or `none` if
the scripted input runs out while the program is still awaiting a line. -/
def lookup_county (county_dict : CountyDict) (display_preference : String) :
    List String → Option String
  | [] => none
  | line :: rest =>
    let user_input := pyStripLower line
    if user_input = "exit" then some display_preference
    else if user_input = "change" then
      match h : ask_display_preference rest with
      | some (p, rest') => lookup_county county_dict p rest'
      | none => none
    else lookup_county county_dict display_preference rest
termination_by inputs => inputs.length
decreasing_by
  · have hlen : ∀ (inputs : List String) (p : String) (rest' : List String),
        ask_display_preference inputs = some (p, rest') → rest'.length < inputs.length := by
      intro inputs
      induction inputs with
      | nil => intro p rest' hh; exact Option.noConfusion hh
      | cons c inputs ih =>
        intro p rest' hh
        simp only [ask_display_preference] at hh
        by_cases h1 : pyStrip c = "" ∨ pyStrip c = "1"
        · rw [if_pos h1] at hh
          cases hh
          exact Nat.lt_succ_self _
        · rw [if_neg h1] at hh
          by_cases h2 : pyStrip c = "2"
          · rw [if_pos h2] at hh
            cases hh
            exact Nat.lt_succ_self _
          · rw [if_neg h2] at hh
            by_cases h3 : pyStrip c = "3"
            · rw [if_pos h3] at hh
              cases hh
              exact Nat.lt_succ_self _
            · rw [if_neg h3] at hh
              exact Nat.lt_succ_of_lt (ih p rest' hh)
    have := hlen _ _ _ h
    simp only [List.length_cons]
    omega
  · simp only [List.length_cons]
    omega

/-- The three fields the loader reads from a row, when all are present and the
third parses as an integer: `(row[0], row[1], int(row[2]))`. -/
def rowFields (row : List String) : Option (String × String × Int) :=
  row[0]?.bind (fun county =>
    row[1]?.bind (fun seat =>
      row[2]?.bind (fun pstr =>
        (pyIntParse pstr).map (fun k => (county, seat, k)))))

/-- The parsed integer keys of the well-formed rows, in file order. -/
def pfxList (rows : List (List String)) : List Int :=
  rows.filterMap (fun r => (rowFields r).map (fun t => t.2.2))

/-- The `(county, seat)` pair of the last row in file order whose parsed key
is `p`, if any. -/
def lastWith : List (List String) → Int → Option (String × String)
  | [], _ => none
  | r :: rows, p =>
    match lastWith rows p with
    | some v => some v
    | none =>
      match rowFields r with
      | some (county, seat, k) => if k = p then some (county, seat) else none
      | none => none

/-- First-defined choice of two optional values. -/
def optOr (a b : Option (String × String)) : Option (String × String) :=
  match a with
  | some v => some v
  | none => b

/-- The formatted output shows the county-name field: it contains the labelled
county line (`'County: '` in the county-only layout, the padded `'County:'`
label in the two-line layout). -/
def emitsCounty (out : List String) (county_name : String) : Prop :=
  ("County: " ++ county_name) ∈ out ∨ ("County:      " ++ county_name) ∈ out

/-- The formatted output shows the seat-city field: it contains the labelled
`'County Seat: '` line. -/
def emitsSeat (out : List String) (seat_city : String) : Prop :=
  ("County Seat: " ++ seat_city) ∈ out

theorem optOr_some (v : String × String) (b : Option (String × String)) :
    optOr (some v) b = some v := rfl

theorem optOr_none (b : Option (String × String)) : optOr none b = b := rfl

theorem optOr_none_right (a : Option (String × String)) : optOr a none = a := by
  cases a <;> rfl


theorem dictHasKey_iff (d : CountyDict) (k : Int) :
    dictHasKey d k = true ↔ k ∈ dictKeys d := by
  simp only [dictHasKey, List.any_eq_true, decide_eq_true_eq, dictKeys, List.mem_map]

theorem dictFind_map_self (d : CountyDict) (k : Int) (v : String × String)
    (hd : dictHasKey d k = true) :
    (d.map (fun e => if e.1 = k then (k, v) else e)).find? (fun e => decide (e.1 = k)) =
      some (k, v) := by
  induction d with
  | nil => simp [dictHasKey] at hd
  | cons a d ih =>
    by_cases ha : a.1 = k
    · rw [List.map_cons, if_pos ha]
      exact List.find?_cons_of_pos _ (by simp)
    · have hd' : dictHasKey d k = true := by
        simp only [dictHasKey, List.any_cons, Bool.or_eq_true, decide_eq_true_eq] at hd
        rcases hd with h | h
        · exact absurd h ha
        · exact h
      rw [List.map_cons, if_neg ha, List.find?_cons_of_neg _ (by simp [ha])]
      exact ih hd'

theorem dictFind_append_self (d : CountyDict) (k : Int) (v : String × String)
    (hd : ¬ dictHasKey d k = true) :
    dictFind (d ++ [(k, v)]) k = some (k, v) := by
  induction d with
  | nil =>
    rw [List.nil_append, dictFind]
    exact List.find?_cons_of_pos _ (by simp)
  | cons a d ih =>
    have ha : ¬ a.1 = k := by
      intro h
      exact hd (by simp [dictHasKey, List.any_cons, h])
    have hd' : ¬ dictHasKey d k = true := by
      intro h
      exact hd (by simp only [dictHasKey, List.any_cons, Bool.or_eq_true]; exact Or.inr h)
    rw [List.cons_append, dictFind, List.find?_cons_of_neg _ (by simp [ha])]
    exact ih hd'

theorem dictFind_map_ne (d : CountyDict) (k : Int) (v : String × String)
    (k' : Int) (hne : k' ≠ k) :
    (d.map (fun e => if e.1 = k then (k, v) else e)).find? (fun e => decide (e.1 = k')) =
      dictFind d k' := by
  induction d with
  | nil => rfl
  | cons a d ih =>
    rw [List.map_cons]
    by_cases ha : a.1 = k
    · rw [if_pos ha,
        List.find?_cons_of_neg _ (by simp only [decide_eq_true_eq]; exact fun h => hne h.symm),
        dictFind, List.find?_cons_of_neg _
          (by simp only [decide_eq_true_eq, ha]; exact fun h => hne h.symm)]
      exact ih
    · rw [if_neg ha, dictFind]
      by_cases hk' : a.1 = k'
      · rw [List.find?_cons_of_pos _ (by simp [hk']),
          List.find?_cons_of_pos _ (by simp [hk'])]
      · rw [List.find?_cons_of_neg _ (by simp [hk']),
          List.find?_cons_of_neg _ (by simp [hk'])]
        exact ih

theorem dictFind_append_ne (d : CountyDict) (k : Int) (v : String × String)
    (k' : Int) (hne : k' ≠ k) :
    dictFind (d ++ [(k, v)]) k' = dictFind d k' := by
  induction d with
  | nil =>
    rw [List.nil_append, dictFind, dictFind,
      List.find?_cons_of_neg _ (by simp only [decide_eq_true_eq]; exact fun h => hne h.symm)]
  | cons a d ih =>
    rw [List.cons_append, dictFind, dictFind]
    by_cases hk' : a.1 = k'
    · rw [List.find?_cons_of_pos _ (by simp [hk']),
        List.find?_cons_of_pos _ (by simp [hk'])]
    · rw [List.find?_cons_of_neg _ (by simp [hk']),
        List.find?_cons_of_neg _ (by simp [hk'])]
      exact ih

theorem dictFind_insert (d : CountyDict) (k : Int) (v : String × String) (k' : Int) :
    dictFind (dictInsert d k v) k' = if k' = k then some (k, v) else dictFind d k' := by
  by_cases hk : k' = k
  · subst hk
    rw [if_pos rfl, dictInsert]
    by_cases hd : dictHasKey d k' = true
    · rw [if_pos hd]
      exact dictFind_map_self d k' v hd
    · rw [if_neg hd]
      exact dictFind_append_self d k' v hd
  · rw [if_neg hk, dictInsert]
    by_cases hd : dictHasKey d k = true
    · rw [if_pos hd]
      exact dictFind_map_ne d k v k' hk
    · rw [if_neg hd]
      exact dictFind_append_ne d k v k' hk

theorem dictLookup_insert (d : CountyDict) (k : Int) (v : String × String) (k' : Int) :
    dictLookup (dictInsert d k v) k' = if k' = k then some v else dictLookup d k' := by
  rw [dictLookup, dictFind_insert]
  by_cases hk : k' = k
  · simp [hk]
  · simp [hk, dictLookup]

theorem dictKeys_map_overwrite (d : CountyDict) (k : Int) (v : String × String) :
    dictKeys (d.map (fun e => if e.1 = k then (k, v) else e)) = dictKeys d := by
  simp only [dictKeys, List.map_map]
  apply List.map_congr_left
  intro a _
  by_cases ha : a.1 = k
  · simp [ha]
  · simp [ha]

theorem dictKeys_insert (d : CountyDict) (k : Int) (v : String × String) (k' : Int) :
    k' ∈ dictKeys (dictInsert d k v) ↔ k' = k ∨ k' ∈ dictKeys d := by
  rw [dictInsert]
  by_cases hd : dictHasKey d k = true
  · rw [if_pos hd, dictKeys_map_overwrite]
    have hmem : k ∈ dictKeys d := (dictHasKey_iff d k).mp hd
    constructor
    · exact Or.inr
    · rintro (rfl | h)
      · exact hmem
      · exact h
  · rw [if_neg hd]
    simp only [dictKeys, List.map_append, List.mem_append, List.map_cons, List.map_nil,
      List.mem_singleton, List.mem_cons, List.not_mem_nil, or_false]
    tauto

theorem dictKeys_insert_nodup (d : CountyDict) (k : Int) (v : String × String)
    (h : (dictKeys d).Nodup) : (dictKeys (dictInsert d k v)).Nodup := by
  rw [dictInsert]
  by_cases hd : dictHasKey d k = true
  · rw [if_pos hd, dictKeys_map_overwrite]
    exact h
  · rw [if_neg hd]
    have hk : k ∉ dictKeys d := fun hm => hd ((dictHasKey_iff d k).mpr hm)
    simp only [dictKeys, List.map_append, List.map_cons, List.map_nil]
    rw [List.nodup_append]
    refine ⟨h, List.nodup_singleton k, ?_⟩
    intro x hx hx'
    simp only [List.mem_singleton] at hx'
    subst hx'
    exact hk hx

theorem dictLength_insert (d : CountyDict) (k : Int) (v : String × String) :
    (dictInsert d k v).length = if dictHasKey d k then d.length else d.length + 1 := by
  rw [dictInsert]
  by_cases hd : dictHasKey d k = true
  · simp [hd]
  · simp [hd]

theorem rowFields_eq_some (r : List String) (county seat : String) (k : Int)
    (h : rowFields r = some (county, seat, k)) :
    ∃ pstr, r[0]? = some county ∧ r[1]? = some seat ∧ r[2]? = some pstr ∧
      pyIntParse pstr = some k := by
  unfold rowFields at h
  rcases Option.bind_eq_some.mp h with ⟨c, h0, h⟩
  rcases Option.bind_eq_some.mp h with ⟨s, h1, h⟩
  rcases Option.bind_eq_some.mp h with ⟨pstr, h2, h⟩
  rcases Option.map_eq_some'.mp h with ⟨k', hp, hk⟩
  simp only [Prod.mk.injEq] at hk
  obtain ⟨rfl, rfl, rfl⟩ := hk
  exact ⟨pstr, h0, h1, h2, hp⟩

theorem lastWith_cons_some (r : List String) (rows : List (List String)) (p : Int)
    (county seat : String) (k : Int) (hrf : rowFields r = some (county, seat, k)) :
    lastWith (r :: rows) p =
      optOr (lastWith rows p) (if k = p then some (county, seat) else none) := by
  rw [lastWith, hrf]
  cases lastWith rows p <;> rfl

theorem processRows_spec (rows : List (List String))
    (hwf : ∀ r ∈ rows, (rowFields r).isSome = true) :
    ∀ d : CountyDict, ∃ d', processRows rows d = .ok d'
      ∧ (∀ p, dictLookup d' p = optOr (lastWith rows p) (dictLookup d p))
      ∧ (∀ p, p ∈ dictKeys d' ↔ p ∈ pfxList rows ∨ p ∈ dictKeys d)
      ∧ ((dictKeys d).Nodup → (dictKeys d').Nodup) := by
  induction rows with
  | nil =>
    intro d
    refine ⟨d, rfl, ?_, ?_, fun h => h⟩
    · intro p
      rw [lastWith, optOr_none]
    · intro p
      simp [pfxList]
  | cons r rows ih =>
    intro d
    have hr : (rowFields r).isSome = true := hwf r (List.mem_cons_self r rows)
    rcases Option.isSome_iff_exists.mp hr with ⟨⟨county, seat, k⟩, hrf⟩
    rcases rowFields_eq_some r county seat k hrf with ⟨pstr, h0, h1, h2, hp⟩
    have hstep : processRows (r :: rows) d =
        processRows rows (dictInsert d k (county, seat)) := by
      simp only [processRows, h0, h1, h2, hp]
    rcases ih (fun r' hr' => hwf r' (List.mem_cons_of_mem r hr'))
        (dictInsert d k (county, seat)) with ⟨d', heq, hlook, hmem, hnd⟩
    refine ⟨d', by rw [hstep]; exact heq, ?_, ?_, ?_⟩
    · intro p
      rw [hlook p, dictLookup_insert, lastWith_cons_some r rows p county seat k hrf]
      cases lastWith rows p with
      | some v => rfl
      | none =>
        by_cases hpk : p = k
        · rw [if_pos hpk, optOr_none, optOr_none, if_pos hpk.symm, optOr_some]
        · rw [if_neg hpk, optOr_none, optOr_none, if_neg (fun h => hpk h.symm), optOr_none]
    · intro p
      rw [hmem p]
      have hpfx : pfxList (r :: rows) = k :: pfxList rows := by
        rw [pfxList, List.filterMap_cons, hrf]
        rfl
      rw [hpfx, dictKeys_insert, List.mem_cons]
      tauto
    · intro h
      exact hnd (dictKeys_insert_nodup d k (county, seat) h)

theorem processRows_ok_nodup :
    ∀ (rows : List (List String)) (d d' : CountyDict),
      processRows rows d = .ok d' → (dictKeys d).Nodup → (dictKeys d').Nodup := by
  intro rows
  induction rows with
  | nil =>
    intro d d' h hd
    cases h
    exact hd
  | cons r rows ih =>
    intro d d' h hd
    cases h0 : r[0]? with
    | none =>
      simp only [processRows, h0] at h
      exact Except.noConfusion h
    | some county =>
      cases h1 : r[1]? with
      | none =>
        simp only [processRows, h0, h1] at h
        exact Except.noConfusion h
      | some seat =>
        cases h2 : r[2]? with
        | none =>
          simp only [processRows, h0, h1, h2] at h
          exact Except.noConfusion h
        | some pstr =>
          cases hp : pyIntParse pstr with
          | none =>
            simp only [processRows, h0, h1, h2, hp] at h
            exact Except.noConfusion h
          | some k =>
            simp only [processRows, h0, h1, h2, hp] at h
            exact ih _ _ h (dictKeys_insert_nodup d k (county, seat) hd)

theorem processRows_ok_wf :
    ∀ (rows : List (List String)) (d d' : CountyDict),
      processRows rows d = .ok d' → ∀ r ∈ rows, (rowFields r).isSome = true := by
  intro rows
  induction rows with
  | nil =>
    intro d d' _ r hr
    cases hr
  | cons r rows ih =>
    intro d d' h r' hr'
    cases h0 : r[0]? with
    | none =>
      simp only [processRows, h0] at h
      exact Except.noConfusion h
    | some county =>
      cases h1 : r[1]? with
      | none =>
        simp only [processRows, h0, h1] at h
        exact Except.noConfusion h
      | some seat =>
        cases h2 : r[2]? with
        | none =>
          simp only [processRows, h0, h1, h2] at h
          exact Except.noConfusion h
        | some pstr =>
          cases hp : pyIntParse pstr with
          | none =>
            simp only [processRows, h0, h1, h2, hp] at h
            exact Except.noConfusion h
          | some k =>
            simp only [processRows, h0, h1, h2, hp] at h
            rcases List.mem_cons.mp hr' with rfl | hmem
            · simp [rowFields, h0, h1, h2, hp]
            · exact ih _ _ h r' hmem

theorem processRows_bad :
    ∀ (rows : List (List String)),
      (∀ r ∈ rows, 3 ≤ r.length) →
      (∃ r ∈ rows, ∃ pstr, r[2]? = some pstr ∧ pyIntParse pstr = none) →
      ∀ d, ∃ v, processRows rows d = .error (.valueError v) ∧ pyIntParse v = none := by
  intro rows
  induction rows with
  | nil =>
    intro _ hbad d
    rcases hbad with ⟨r, hr, _⟩
    cases hr
  | cons r rows ih =>
    intro hlen hbad d
    have hr3 : 3 ≤ r.length := hlen r (List.mem_cons_self r rows)
    have h0 : r[0]? = some r[0] := List.getElem?_eq_getElem (by omega)
    have h1 : r[1]? = some r[1] := List.getElem?_eq_getElem (by omega)
    have h2 : r[2]? = some r[2] := List.getElem?_eq_getElem (by omega)
    cases hp : pyIntParse r[2] with
    | none =>
      refine ⟨r[2], ?_, hp⟩
      simp only [processRows, h0, h1, h2, hp]
    | some k =>
      have hbad' : ∃ r' ∈ rows, ∃ pstr, r'[2]? = some pstr ∧ pyIntParse pstr = none := by
        rcases hbad with ⟨r', hr', pstr, hps, hpn⟩
        rcases List.mem_cons.mp hr' with rfl | hmem
        · rw [h2] at hps
          cases hps
          rw [hp] at hpn
          cases hpn
        · exact ⟨r', hmem, pstr, hps, hpn⟩
      rcases ih (fun r' hr' => hlen r' (List.mem_cons_of_mem r hr')) hbad'
          (dictInsert d k (r[0], r[1])) with ⟨v, hpr, hvn⟩
      refine ⟨v, ?_, hvn⟩
      simp only [processRows, h0, h1, h2, hp]
      exact hpr

theorem strNe_of_getElem (u v : String) (i : Nat) (c1 c2 : Char)
    (h1 : u.data[i]? = some c1) (h2 : v.data[i]? = some c2) (hne : c1 ≠ c2) : u ≠ v := by
  intro h
  rw [h] at h1
  rw [h1] at h2
  exact hne (Option.some.inj h2)

theorem strApp_getElem (a x : String) (i : Nat) (c : Char) (h : a.data[i]? = some c) :
    (a ++ x).data[i]? = some c := by
  have hi : i < a.data.length := by
    rcases List.getElem?_eq_some.mp h with ⟨hlt, _⟩
    exact hlt
  show (a.data ++ x.data)[i]? = some c
  rw [List.getElem?_append_left hi]
  exact h

theorem strAppNe_app (a x b y : String) (i : Nat) (c1 c2 : Char)
    (h1 : a.data[i]? = some c1) (h2 : b.data[i]? = some c2) (hne : c1 ≠ c2) :
    (a ++ x) ≠ (b ++ y) :=
  strNe_of_getElem _ _ i c1 c2 (strApp_getElem a x i c1 h1) (strApp_getElem b y i c2 h2) hne

theorem strAppNe_lit (a x v : String) (i : Nat) (c1 c2 : Char)
    (h1 : a.data[i]? = some c1) (h2 : v.data[i]? = some c2) (hne : c1 ≠ c2) :
    (a ++ x) ≠ v :=
  strNe_of_getElem _ _ i c1 c2 (strApp_getElem a x i c1 h1) h2 hne

/-- C1: the spec says a data row with fewer than three fields is reported as a
`MalformedData` condition with a descriptive message.  The code instead raises
`IndexError` at `row[2]` (the `except` clauses catch only `FileNotFoundError`,
`KeyError` and `ValueError`), so the process dies with an uncaught exception:
neither the malformed-data handler nor the (dead) missing-column handler runs.
This theorem evaluates the loader at such a file. -/
theorem C1_short_row_uncaught_index_error :
    load_county_data
        (fun _ => some [["County", "County Seat", "Num"], ["Custer", "Miles City"]])
        "MontanaCounties.csv" = .uncaught .indexError ∧
    ∀ m, load_county_data
        (fun _ => some [["County", "County Seat", "Num"], ["Custer", "Miles City"]])
        "MontanaCounties.csv" ≠ .malformedExit m ∧
      load_county_data
        (fun _ => some [["County", "County Seat", "Num"], ["Custer", "Miles City"]])
        "MontanaCounties.csv" ≠ .missingColumnExit m := by
  have heval : load_county_data
      (fun _ => some [["County", "County Seat", "Num"], ["Custer", "Miles City"]])
      "MontanaCounties.csv" = .uncaught .indexError := by decide
  refine ⟨heval, fun m => ⟨?_, ?_⟩⟩ <;> intro h <;> rw [heval] at h <;>
    exact LoadOutcome.noConfusion h

/-- C10: a file with no lines at all makes the header-discarding
`next(reader)` raise `StopIteration`, which no handler catches: the loader
ends in an uncaught exception, not in the `NotFound` or `MalformedData`
(or missing-column) exit paths. -/
theorem C10_empty_file_uncaught_stop_iteration :
    load_county_data (fun _ => some []) "MontanaCounties.csv" =
      .uncaught .stopIteration ∧
    ∀ m, load_county_data (fun _ => some []) "MontanaCounties.csv" ≠ .notFoundExit m ∧
      load_county_data (fun _ => some []) "MontanaCounties.csv" ≠ .malformedExit m ∧
      load_county_data (fun _ => some []) "MontanaCounties.csv" ≠ .missingColumnExit m := by
  have heval : load_county_data (fun _ => some []) "MontanaCounties.csv" =
      .uncaught .stopIteration := by decide
  refine ⟨heval, fun m => ⟨?_, ?_, ?_⟩⟩ <;> intro h <;> rw [heval] at h <;>
    exact LoadOutcome.noConfusion h

/-- C9 counterexample: the loader never checks sign, so a successful load can
return a table whose key is not positive: a file whose only data row carries
the prefix field `"-3"` loads fine and the table's sole key is `-3`. -/
theorem C9_counterexample_nonpositive_key :
    load_county_data
        (fun _ => some [["County", "County Seat", "Num"], ["Lincoln", "Libby", "-3"]])
        "MontanaCounties.csv" = .ok [(-3, ("Lincoln", "Libby"))] ∧
    (-3 : Int) ∈ dictKeys [((-3 : Int), ("Lincoln", "Libby"))] ∧ ¬ (0 < (-3 : Int)) :=
  ⟨by decide, by decide, by decide⟩

/-- C9 (amended): every table returned by a successful load has pairwise
distinct keys.  Positivity of the keys is not enforced by the loader (see the
counterexample); it is a property of the shipped data only. -/
theorem C9_amended_keys_distinct :
    ∀ (fs : String → Option (List (List String))) (filename : String) (d : CountyDict),
      load_county_data fs filename = .ok d → (dictKeys d).Nodup := by
  intro fs filename d h
  rw [load_county_data] at h
  cases hfs : fs filename with
  | none =>
    simp only [hfs] at h
    exact LoadOutcome.noConfusion h
  | some rows =>
    cases rows with
    | nil =>
      simp only [hfs] at h
      exact LoadOutcome.noConfusion h
    | cons hdr rows =>
      simp only [hfs] at h
      cases hpr : processRows rows [] with
      | ok d0 =>
        simp only [hpr] at h
        obtain rfl : d0 = d := by injection h
        exact processRows_ok_nodup rows [] _ hpr (by simp [dictKeys])
      | error e =>
        cases e <;> simp only [hpr] at h <;> exact LoadOutcome.noConfusion h

theorem C9_witness :
    load_county_data (fun _ => some [["h"], ["A", "B", "7"], ["C", "D", "9"]]) "f" =
      .ok [(7, ("A", "B")), (9, ("C", "D"))] ∧
    (dictKeys [((7 : Int), ("A", "B")), ((9 : Int), ("C", "D"))]).Nodup :=
  ⟨by decide, C9_amended_keys_distinct (fun _ => some [["h"], ["A", "B", "7"], ["C", "D", "9"]])
    "f" _ (by decide)⟩

/-- C2 counterexample: the claim quantifies over every file containing a row
whose prefix field does not parse; but if a row with fewer than three fields
occurs first, the loader dies of the uncaught `IndexError` before reaching the
unparsable prefix, so no `MalformedData` exit happens. -/
theorem C2_counterexample_short_row_first :
    load_county_data
        (fun _ => some [["County", "County Seat", "Num"], ["Custer"], ["Lincoln", "Libby", "xyz"]])
        "MontanaCounties.csv" = .uncaught .indexError ∧
    ∀ m, load_county_data
        (fun _ => some [["County", "County Seat", "Num"], ["Custer"], ["Lincoln", "Libby", "xyz"]])
        "MontanaCounties.csv" ≠ .malformedExit m := by
  have heval : load_county_data
      (fun _ => some [["County", "County Seat", "Num"], ["Custer"], ["Lincoln", "Libby", "xyz"]])
      "MontanaCounties.csv" = .uncaught .indexError := by decide
  refine ⟨heval, fun m h => ?_⟩
  rw [heval] at h
  exact LoadOutcome.noConfusion h

/-- C2 (amended): an unopenable path exits through the `NotFound` handler with
a message naming the path; a file in which every data row has at least three
fields and some prefix field does not parse exits through the `MalformedData`
handler, the message carrying an offending (unparsable) value; and a table is
returned only when every row was fully validated, so no failing load ever
yields a partial table. -/
theorem C2_amended_notfound_and_malformed :
    (∀ (fs : String → Option (List (List String))) (filename : String),
        fs filename = none →
        load_county_data fs filename =
          .notFoundExit ("Error: Could not find file '" ++ filename ++ "'")) ∧
    (∀ (fs : String → Option (List (List String))) (filename : String)
        (hdr : List String) (rows : List (List String)),
        fs filename = some (hdr :: rows) →
        (∀ r ∈ rows, 3 ≤ r.length) →
        (∃ r ∈ rows, ∃ pstr, r[2]? = some pstr ∧ pyIntParse pstr = none) →
        ∃ v, load_county_data fs filename =
            .malformedExit ("Error: Invalid data in CSV file: " ++ v) ∧
          pyIntParse v = none) ∧
    (∀ (fs : String → Option (List (List String))) (filename : String)
        (hdr : List String) (rows : List (List String)) (d : CountyDict),
        fs filename = some (hdr :: rows) →
        load_county_data fs filename = .ok d →
        ∀ r ∈ rows, (rowFields r).isSome = true) := by
  refine ⟨?_, ?_, ?_⟩
  · intro fs filename h
    rw [load_county_data]
    simp only [h]
  · intro fs filename hdr rows hfs hlen hbad
    rcases processRows_bad rows hlen hbad [] with ⟨v, hpr, hvn⟩
    refine ⟨v, ?_, hvn⟩
    rw [load_county_data]
    simp only [hfs, hpr]
  · intro fs filename hdr rows d hfs h r hr
    rw [load_county_data] at h
    simp only [hfs] at h
    cases hpr : processRows rows [] with
    | ok d0 => exact processRows_ok_wf rows [] d0 hpr r hr
    | error e =>
      cases e <;> simp only [hpr] at h <;> exact LoadOutcome.noConfusion h

theorem C2_witness :
    load_county_data (fun _ => none) "MontanaCounties.csv" =
      .notFoundExit ("Error: Could not find file '" ++ "MontanaCounties.csv" ++ "'") ∧
    ∃ v, load_county_data (fun _ => some [["h"], ["A", "B", "xyz"]]) "f" =
        .malformedExit ("Error: Invalid data in CSV file: " ++ v) ∧ pyIntParse v = none :=
  ⟨C2_amended_notfound_and_malformed.1 (fun _ => none) "MontanaCounties.csv" rfl,
   C2_amended_notfound_and_malformed.2.1 (fun _ => some [["h"], ["A", "B", "xyz"]]) "f"
     ["h"] [["A", "B", "xyz"]] rfl (by decide)
     ⟨["A", "B", "xyz"], by decide, "xyz", by decide, by decide⟩⟩

/-- C3: loading a well-formed file (all rows carry three fields and an integer
prefix) succeeds, the table has one entry per distinct prefix (hence at most
one per row), and looking up any prefix returns exactly the county/seat pair
of the last row in file order with that prefix: last write wins. -/
theorem C3_load_last_write_wins :
    ∀ (fs : String → Option (List (List String))) (filename : String)
      (hdr : List String) (rows : List (List String)),
      fs filename = some (hdr :: rows) →
      (∀ r ∈ rows, (rowFields r).isSome = true) →
      ∃ d, load_county_data fs filename = .ok d ∧
        d.length = (pfxList rows).dedup.length ∧
        d.length ≤ rows.length ∧
        ∀ p, dictLookup d p = lastWith rows p := by
  intro fs filename hdr rows hfs hwf
  rcases processRows_spec rows hwf [] with ⟨d, hpr, hlook, hmem, hnd⟩
  have hload : load_county_data fs filename = .ok d := by
    rw [load_county_data]
    simp only [hfs, hpr]
  have hnodup : (dictKeys d).Nodup := hnd (by simp [dictKeys])
  have hfin : (dictKeys d).toFinset = (pfxList rows).toFinset := by
    ext p
    simp only [List.mem_toFinset]
    rw [hmem p]
    simp [dictKeys]
  have hlen : d.length = (pfxList rows).dedup.length := by
    have h1 : d.length = (dictKeys d).length := (List.length_map d _).symm
    have h2 : (dictKeys d).length = (dictKeys d).toFinset.card :=
      (List.toFinset_card_of_nodup hnodup).symm
    rw [h1, h2, hfin, List.card_toFinset]
  have hle : d.length ≤ rows.length := by
    rw [hlen]
    calc (pfxList rows).dedup.length ≤ (pfxList rows).length :=
          (List.dedup_sublist _).length_le
      _ ≤ rows.length := List.length_filterMap_le _ _
  refine ⟨d, hload, hlen, hle, fun p => ?_⟩
  rw [hlook p, show dictLookup [] p = none from rfl, optOr_none_right]

theorem C3_witness :
    ∃ d, load_county_data
        (fun _ => some [["County", "County Seat", "Num"], ["Custer", "Miles City", "2"],
          ["Custer2", "Other", "2"], ["Lincoln", "Libby", "5"]]) "f" = .ok d ∧
      d.length = (pfxList [["Custer", "Miles City", "2"], ["Custer2", "Other", "2"],
        ["Lincoln", "Libby", "5"]]).dedup.length ∧
      d.length ≤ ([["Custer", "Miles City", "2"], ["Custer2", "Other", "2"],
        ["Lincoln", "Libby", "5"]] : List (List String)).length ∧
      ∀ p, dictLookup d p = lastWith [["Custer", "Miles City", "2"],
        ["Custer2", "Other", "2"], ["Lincoln", "Libby", "5"]] p :=
  C3_load_last_write_wins _ "f" _ _ rfl (by decide)

/-- C5: the display-preference selector maps (stripped) input `""` or `"1"` to
`'both'`, `"2"` to `'county'`, `"3"` to `'seat'`; on any other input it
re-prompts on the remaining input (it never exits the process), and whatever
it returns is one of the three valid preferences. -/
theorem C5_selector_mapping :
    (∀ (c : String) (inputs : List String), pyStrip c = "" ∨ pyStrip c = "1" →
        ask_display_preference (c :: inputs) = some ("both", inputs)) ∧
    (∀ (c : String) (inputs : List String), pyStrip c = "2" →
        ask_display_preference (c :: inputs) = some ("county", inputs)) ∧
    (∀ (c : String) (inputs : List String), pyStrip c = "3" →
        ask_display_preference (c :: inputs) = some ("seat", inputs)) ∧
    (∀ (c : String) (inputs : List String),
        ¬ (pyStrip c = "" ∨ pyStrip c = "1") → pyStrip c ≠ "2" → pyStrip c ≠ "3" →
        ask_display_preference (c :: inputs) = ask_display_preference inputs) ∧
    (∀ (inputs : List String) (p : String) (rest : List String),
        ask_display_preference inputs = some (p, rest) →
        p = "both" ∨ p = "county" ∨ p = "seat") := by
  refine ⟨?_, ?_, ?_, ?_, ?_⟩
  · intro c inputs h
    simp only [ask_display_preference]
    rw [if_pos h]
  · intro c inputs h
    simp only [ask_display_preference]
    rw [if_neg (by rw [h]; decide), if_pos h]
  · intro c inputs h
    simp only [ask_display_preference]
    rw [if_neg (by rw [h]; decide), if_neg (by rw [h]; decide), if_pos h]
  · intro c inputs h1 h2 h3
    simp only [ask_display_preference]
    rw [if_neg h1, if_neg h2, if_neg h3]
  · intro inputs
    induction inputs with
    | nil => intro p rest h; exact Option.noConfusion h
    | cons c inputs ih =>
      intro p rest h
      simp only [ask_display_preference] at h
      by_cases h1 : pyStrip c = "" ∨ pyStrip c = "1"
      · rw [if_pos h1] at h
        cases h
        exact Or.inl rfl
      · rw [if_neg h1] at h
        by_cases h2 : pyStrip c = "2"
        · rw [if_pos h2] at h
          cases h
          exact Or.inr (Or.inl rfl)
        · rw [if_neg h2] at h
          by_cases h3 : pyStrip c = "3"
          · rw [if_pos h3] at h
            cases h
            exact Or.inr (Or.inr rfl)
          · rw [if_neg h3] at h
            exact ih p rest h

theorem C5_witness :
    ask_display_preference ["", "x"] = some ("both", ["x"]) ∧
    ask_display_preference ["1"] = some ("both", []) ∧
    ask_display_preference [" 2 "] = some ("county", []) ∧
    ask_display_preference ["3"] = some ("seat", []) ∧
    ask_display_preference ["junk", "3"] = ask_display_preference ["3"] ∧
    ("both" = "both" ∨ "both" = "county" ∨ "both" = "seat") :=
  ⟨C5_selector_mapping.1 "" ["x"] (Or.inl (by decide)),
   C5_selector_mapping.1 "1" [] (Or.inr (by decide)),
   C5_selector_mapping.2.1 " 2 " [] (by decide),
   C5_selector_mapping.2.2.1 "3" [] (by decide),
   C5_selector_mapping.2.2.2.1 "junk" ["3"] (by decide) (by decide) (by decide),
   C5_selector_mapping.2.2.2.2 ["1"] "both" [] (by decide)⟩

/-- C6: one iteration of the query loop terminates the loop exactly when the
input line, stripped and lowercased, is `"exit"` — for every dictionary,
every current preference and every remaining input.  Every other line leaves
the loop running (or, in the scripted model, waiting for further input inside
the preference selector); no input is fatal. -/
theorem C6_exit_only_termination :
    ∀ (county_dict : CountyDict) (display_preference line : String) (rest : List String),
      (∃ out, lookup_county_step county_dict display_preference (line :: rest) =
        .terminated out) ↔ pyStripLower line = "exit" := by
  intro d pref line rest
  constructor
  · rintro ⟨out, hout⟩
    by_cases h1 : pyStripLower line = "exit"
    · exact h1
    · exfalso
      simp only [lookup_county_step] at hout
      rw [if_neg h1] at hout
      by_cases h2 : pyStripLower line = "change"
      · rw [if_pos h2] at hout
        cases hask : ask_display_preference rest with
        | none =>
          simp only [hask] at hout
          exact StepOut.noConfusion hout
        | some pr =>
          rcases pr with ⟨p, rest'⟩
          simp only [hask] at hout
          exact StepOut.noConfusion hout
      · rw [if_neg h2] at hout
        cases hp : pyIntParse (pyStripLower line) with
        | none =>
          simp only [hp] at hout
          exact StepOut.noConfusion hout
        | some k =>
          cases hl : dictLookup d k with
          | none =>
            simp only [hp, hl] at hout
            exact StepOut.noConfusion hout
          | some data =>
            simp only [hp, hl] at hout
            exact StepOut.noConfusion hout
  · intro h
    refine ⟨["\n See ya!"], ?_⟩
    simp only [lookup_county_step]
    rw [if_pos h]

/-- C7: on a (stripped, lowercased) `"change"` line the loop invokes the
display-preference selector on the remaining input and continues running with
the selector's result as the new preference (dictionary untouched); in
particular `"change"` followed by `"2"` installs `'county'`; and a subsequent
successful query is formatted by `display_result` under the current
(`'county'`) preference. -/
theorem C7_change_updates_preference :
    (∀ (county_dict : CountyDict) (display_preference line : String)
        (rest : List String) (p : String) (rest' : List String),
        pyStripLower line = "change" →
        ask_display_preference rest = some (p, rest') →
        lookup_county_step county_dict display_preference (line :: rest) =
          .running county_dict p rest' ["\nDisplay preference updated!"]) ∧
    (∀ (county_dict : CountyDict) (display_preference : String) (rest : List String),
        lookup_county_step county_dict display_preference ("change" :: "2" :: rest) =
          .running county_dict "county" rest ["\nDisplay preference updated!"]) ∧
    (∀ (county_dict : CountyDict) (line : String) (rest : List String) (k : Int)
        (data : String × String),
        pyIntParse (pyStripLower line) = some k →
        dictLookup county_dict k = some data →
        lookup_county_step county_dict "county" (line :: rest) =
          .running county_dict "county" rest (display_result k data "county")) := by
  have hchange : ∀ (county_dict : CountyDict) (display_preference line : String)
      (rest : List String) (p : String) (rest' : List String),
      pyStripLower line = "change" →
      ask_display_preference rest = some (p, rest') →
      lookup_county_step county_dict display_preference (line :: rest) =
        .running county_dict p rest' ["\nDisplay preference updated!"] := by
    intro d pref line rest p rest' hline hask
    simp only [lookup_county_step]
    rw [if_neg (by rw [hline]; decide), if_pos hline]
    simp only [hask]
  refine ⟨hchange, ?_, ?_⟩
  · intro d pref rest
    refine hchange d pref "change" ("2" :: rest) "county" rest (by decide) ?_
    simp only [ask_display_preference]
    rw [if_neg (by decide), if_pos (by decide)]
  · intro d line rest k data hp hl
    have h1 : ¬ pyStripLower line = "exit" := by
      intro hcon
      rw [hcon, show pyIntParse "exit" = none from by decide] at hp
      exact Option.noConfusion hp
    have h2 : ¬ pyStripLower line = "change" := by
      intro hcon
      rw [hcon, show pyIntParse "change" = none from by decide] at hp
      exact Option.noConfusion hp
    simp only [lookup_county_step]
    rw [if_neg h1, if_neg h2]
    simp only [hp, hl]

theorem C7_witness :
    lookup_county_step [(2, ("Custer", "Miles City"))] "both" ["change", "2"] =
      .running [(2, ("Custer", "Miles City"))] "county" [] ["\nDisplay preference updated!"] ∧
    lookup_county_step [(2, ("Custer", "Miles City"))] "county" ["2"] =
      .running [(2, ("Custer", "Miles City"))] "county" []
        (display_result 2 ("Custer", "Miles City") "county") :=
  ⟨C7_change_updates_preference.2.1 [(2, ("Custer", "Miles City"))] "both" [],
   C7_change_updates_preference.2.2 [(2, ("Custer", "Miles City"))] "2" [] 2
     ("Custer", "Miles City") (by decide) (by decide)⟩

/-- C8: any loop input that is neither `"exit"` nor `"change"` (after strip
and lowercase) and either fails integer parsing or parses to a key absent
from the dictionary, produces a nonempty inline message and leaves the state
unchanged: same dictionary, same preference, loop still running, exactly that
line consumed. -/
theorem C8_invalid_or_absent_frame :
    ∀ (county_dict : CountyDict) (display_preference line : String) (rest : List String),
      pyStripLower line ≠ "exit" →
      pyStripLower line ≠ "change" →
      (pyIntParse (pyStripLower line) = none ∨
        ∃ k, pyIntParse (pyStripLower line) = some k ∧ dictLookup county_dict k = none) →
      ∃ out, out ≠ [] ∧
        lookup_county_step county_dict display_preference (line :: rest) =
          .running county_dict display_preference rest out := by
  intro d pref line rest h1 h2 h3
  simp only [lookup_county_step]
  rw [if_neg h1, if_neg h2]
  rcases h3 with hp | ⟨k, hp, hl⟩
  · refine ⟨["\nInvalid input: '" ++ pyStripLower line ++ "' is not a valid number.",
      "   Please enter a numeric prefix or 'exit' to quit."], by simp, ?_⟩
    simp only [hp]
  · refine ⟨["\nPrefix " ++ toString k ++ " not found in database.",
      "   Valid prefixes are 1-56.",
      "   Please check the license plate number and try again."], by simp, ?_⟩
    simp only [hp, hl]

theorem C8_witness :
    (∃ out, out ≠ [] ∧ lookup_county_step [(2, ("Custer", "Miles City"))] "both" ["abc"] =
        .running [(2, ("Custer", "Miles City"))] "both" [] out) ∧
    (∃ out, out ≠ [] ∧ lookup_county_step [(2, ("Custer", "Miles City"))] "both" ["9999"] =
        .running [(2, ("Custer", "Miles City"))] "both" [] out) :=
  ⟨C8_invalid_or_absent_frame [(2, ("Custer", "Miles City"))] "both" "abc" []
     (by decide) (by decide) (Or.inl (by decide)),
   C8_invalid_or_absent_frame [(2, ("Custer", "Miles City"))] "both" "9999" []
     (by decide) (by decide) (Or.inr ⟨9999, by decide, by decide⟩)⟩

/-- C4: for every record and every preference the formatter's output carries
exactly the field subset the preference selects: under `'both'` both labelled
field lines, under `'county'` the county line and provably no seat line,
under `'seat'` the seat line and provably no county line — for arbitrary
county and seat strings. -/
theorem C4_formatter_field_subset :
    ∀ (k : Int) (county_name seat_city : String),
      (emitsCounty (display_result k (county_name, seat_city) "both") county_name ∧
        emitsSeat (display_result k (county_name, seat_city) "both") seat_city) ∧
      (emitsCounty (display_result k (county_name, seat_city) "county") county_name ∧
        ¬ emitsSeat (display_result k (county_name, seat_city) "county") seat_city) ∧
      (emitsSeat (display_result k (county_name, seat_city) "seat") seat_city ∧
        ¬ emitsCounty (display_result k (county_name, seat_city) "seat") county_name) := by
  intro k c s
  have hb : display_result k (c, s) "both" =
      ["\n" ++ sepEq, "License Plate Prefix: " ++ toString k, sepDash,
       "County:      " ++ c, "County Seat: " ++ s, sepEq] := rfl
  have hco : display_result k (c, s) "county" =
      ["\n" ++ sepEq, "License Plate Prefix: " ++ toString k, sepDash,
       "County: " ++ c, sepEq] := rfl
  have hse : display_result k (c, s) "seat" =
      ["\n" ++ sepEq, "License Plate Prefix: " ++ toString k, sepDash,
       "County Seat: " ++ s, sepEq] := rfl
  refine ⟨⟨?_, ?_⟩, ⟨?_, ?_⟩, ?_, ?_⟩
  · simp [emitsCounty, hb]
  · simp [emitsSeat, hb]
  · simp [emitsCounty, hco]
  · have n1 : ("County Seat: " ++ s) ≠ ("\n" ++ sepEq) :=
      strAppNe_app _ _ _ _ 0 'C' '\n' (by decide) (by decide) (by decide)
    have n2 : ("County Seat: " ++ s) ≠ ("License Plate Prefix: " ++ toString k) :=
      strAppNe_app _ _ _ _ 0 'C' 'L' (by decide) (by decide) (by decide)
    have n3 : ("County Seat: " ++ s) ≠ sepDash :=
      strAppNe_lit _ _ _ 0 'C' '-' (by decide) (by decide) (by decide)
    have n4 : ("County Seat: " ++ s) ≠ ("County: " ++ c) :=
      strAppNe_app _ _ _ _ 6 ' ' ':' (by decide) (by decide) (by decide)
    have n5 : ("County Seat: " ++ s) ≠ sepEq :=
      strAppNe_lit _ _ _ 0 'C' '=' (by decide) (by decide) (by decide)
    simp [emitsSeat, hco, n1, n2, n3, n4, n5]
  · simp [emitsSeat, hse]
  · have m1 : ("County: " ++ c) ≠ ("\n" ++ sepEq) :=
      strAppNe_app _ _ _ _ 0 'C' '\n' (by decide) (by decide) (by decide)
    have m2 : ("County: " ++ c) ≠ ("License Plate Prefix: " ++ toString k) :=
      strAppNe_app _ _ _ _ 0 'C' 'L' (by decide) (by decide) (by decide)
    have m3 : ("County: " ++ c) ≠ sepDash :=
      strAppNe_lit _ _ _ 0 'C' '-' (by decide) (by decide) (by decide)
    have m4 : ("County: " ++ c) ≠ ("County Seat: " ++ s) :=
      strAppNe_app _ _ _ _ 6 ':' ' ' (by decide) (by decide) (by decide)
    have m5 : ("County: " ++ c) ≠ sepEq :=
      strAppNe_lit _ _ _ 0 'C' '=' (by decide) (by decide) (by decide)
    have m6 : ("County:      " ++ c) ≠ ("\n" ++ sepEq) :=
      strAppNe_app _ _ _ _ 0 'C' '\n' (by decide) (by decide) (by decide)
    have m7 : ("County:      " ++ c) ≠ ("License Plate Prefix: " ++ toString k) :=
      strAppNe_app _ _ _ _ 0 'C' 'L' (by decide) (by decide) (by decide)
    have m8 : ("County:      " ++ c) ≠ sepDash :=
      strAppNe_lit _ _ _ 0 'C' '-' (by decide) (by decide) (by decide)
    have m9 : ("County:      " ++ c) ≠ ("County Seat: " ++ s) :=
      strAppNe_app _ _ _ _ 6 ':' ' ' (by decide) (by decide) (by decide)
    have m10 : ("County:      " ++ c) ≠ sepEq :=
      strAppNe_lit _ _ _ 0 'C' '=' (by decide) (by decide) (by decide)
    simp [emitsCounty, hse, m1, m2, m3, m4, m5, m6, m7, m8, m9, m10]
